import Mathlib

/-!
Verification of the CarbonWise household-waste carbon-footprint calculator
(src/app.py): the emission-factor table, the emissions calculator
`calculate_emissions`, the month-keyed history store, the lazy
migration-on-read of legacy records, the add-item form handler, and the
history deserialization policy.  Python floats are modelled as exact
rationals, dictionaries as ordered association lists with first-occurrence
lookup and replace-or-append assignment (Python dict semantics), and
fallible lookups (`KeyError`) as `Option`.
-/

namespace CarbonWise

/-- A waste entry as stored in `st.session_state.waste_items`: a category
name, a quantity in kilograms, and an optional numeric id (legacy records
in persisted history may lack the id). -/
structure WasteItem where
  category : String
  quantity : ℚ
  id : Option Nat := none
deriving Repr, DecidableEq

/-- The hard-coded EMISSION_FACTORS table of src/app.py (kg CO2 per kg of
waste for each of the seven categories). -/
def EMISSION_FACTORS : List (String × ℚ) :=
  [("Plastic", 6),
   ("Paper", 12/10),
   ("Food Waste", 19/10),
   ("Glass", 85/100),
   ("Cardboard", 1),
   ("Textiles", 5),
   ("Metal", 5/2)]

/-- Python dict lookup `EMISSION_FACTORS[cat]`: `none` models a `KeyError`. -/
def lookupFactor (c : String) : Option ℚ :=
  (EMISSION_FACTORS.find? (fun p => p.1 == c)).map Prod.snd

/-- Python dict assignment `d[k] = v`: replace the value at the first
occurrence of `k`, keeping its position, or append `(k, v)` at the end. -/
def setAssoc {α : Type} (l : List (String × α)) (k : String) (v : α) :
    List (String × α) :=
  match l with
  | [] => [(k, v)]
  | p :: rest => if p.1 == k then (p.1, v) :: rest else p :: setAssoc rest k v

/-- Python `d.get(k, 0)` on a numeric dict: value at the first occurrence
of `k`, or `0` when absent. -/
def getDA (l : List (String × ℚ)) (k : String) : ℚ :=
  ((l.find? (fun p => p.1 == k)).map Prod.snd).getD 0

/-- Python `d.get(k)` used as a lookup that may be absent. -/
def lookupA {α : Type} (l : List (String × α)) (k : String) : Option α :=
  (l.find? (fun p => p.1 == k)).map Prod.snd

/-- Sum of the values of a numeric dict, `sum(d.values())`. -/
def sumValues (l : List (String × ℚ)) : ℚ :=
  (l.map Prod.snd).sum

/-- Round a rational to the nearest integer, ties to even — the behaviour
of Python's builtin `round` (banker's rounding). -/
def roundHalfEven (q : ℚ) : ℤ :=
  let f := ⌊q⌋
  let r := q - f
  if r < 1/2 then f
  else if 1/2 < r then f + 1
  else if f % 2 = 0 then f else f + 1

/-- Python `round(x, 2)`. -/
def round2 (q : ℚ) : ℚ :=
  (roundHalfEven (100 * q) : ℚ) / 100

/-- The dictionary returned by `calculate_emissions`: rounded grand total,
per-category breakdown (insertion-ordered dict), and the input items. -/
structure CalculationResult where
  total : ℚ
  by_category : List (String × ℚ)
  items : List WasteItem
deriving Repr, DecidableEq

/-- The accumulation loop of `calculate_emissions`: for each item, look up
its category's factor (a missing key is a fatal `KeyError`, modelled as
`none`), add `quantity * factor` to the category's subtotal and to the
running grand total. -/
def calcLoop : List WasteItem → List (String × ℚ) → ℚ →
    Option (List (String × ℚ) × ℚ)
  | [], byCat, total => some (byCat, total)
  | item :: rest, byCat, total =>
    match lookupFactor item.category with
    | none => none
    | some f =>
      let emission := item.quantity * f
      calcLoop rest (setAssoc byCat item.category (getDA byCat item.category + emission))
        (total + emission)

/-- `calculate_emissions(items)` of src/app.py: accumulate per-category
subtotals and the grand total, round only the grand total to 2 decimal
places, and return the result dict (or fail on an unknown category). -/
def calculate_emissions (items : List WasteItem) : Option CalculationResult :=
  (calcLoop items [] 0).map fun p =>
    { total := round2 p.2, by_category := p.1, items := items }

/-- The unrounded grand total `sum(q * factor[c] for c, q in entries)`
(with a defaulted factor of 0; the claims assume every category is known,
under which the default is never used). -/
def emitSum (items : List WasteItem) : ℚ :=
  (items.map (fun i => i.quantity * ((lookupFactor i.category).getD 0))).sum

/-- A persisted history record, as stored under a month label.  Stored
records are plain dicts, so any of the three keys may be absent (legacy
shapes); `none` models an absent key. -/
structure Record where
  total : Option ℚ := none
  by_category : Option (List (String × ℚ)) := none
  items : Option (List WasteItem) := none
deriving Repr, DecidableEq

/-- The persisted history: a dict from month label to record. -/
abbrev History := List (String × Record)

/-- Package a calculator result as a stored history record (all three keys
present). -/
def resultToRecord (r : CalculationResult) : Record :=
  { total := some r.total, by_category := some r.by_category, items := some r.items }

/-- Python truthiness of `d.get(key)` for a list- or dict-valued key:
falsy when the key is absent or its value is empty. -/
def truthyOptList {α : Type} : Option (List α) → Bool
  | none => false
  | some l => !l.isEmpty

/-- The history update performed on Calculate:
`history[month_label] = result` (Python dict assignment, last write wins). -/
def put_history (h : History) (m : String) (r : Record) : History :=
  setAssoc h m r

/-- Reading the record of month `m` with the lazy migration-on-read of
tab 2 and tab 3 of src/app.py: if the record lacks a (non-empty)
`by_category` but has (non-empty) `items`, the whole record is replaced by
`calculate_emissions(items)` and written back; returns the record seen by
the caller together with the possibly-updated store.  `none` models a
fatal error (month absent, or `KeyError` inside the recomputation). -/
def read_record (h : History) (m : String) : Option (Record × History) :=
  match lookupA h m with
  | none => none
  | some data =>
    if !truthyOptList data.by_category && truthyOptList data.items then
      match calculate_emissions (data.items.getD []) with
      | none => none
      | some r => some (resultToRecord r, setAssoc h m (resultToRecord r))
    else some (data, h)

/-- The record-level migration step shared by tab 2 and tab 3: a record
with no (non-empty) `by_category` but with (non-empty) `items` is replaced
wholesale by the recomputed `calculate_emissions(items)`; any other record
passes through unchanged. -/
def migrate_record (data : Record) : Option Record :=
  if !truthyOptList data.by_category && truthyOptList data.items then
    (calculate_emissions (data.items.getD [])).map resultToRecord
  else some data

/-- The toast shown by the add-item form handler. -/
inductive Toast where
  | added (quantity : ℚ) (category : String)
  | invalidQuantity
deriving Repr, DecidableEq

/-- The add-item form submit handler of src/app.py: a positive quantity
appends a new item (with id = current length) and toasts success; any
other quantity leaves the item list untouched and toasts a warning.  The
function is total: no exception is raised on either branch. -/
def submit_add_item (waste_items : List WasteItem) (category : String) (quantity : ℚ) :
    List WasteItem × Toast :=
  if quantity > 0 then
    (waste_items ++
       [{ category := category, quantity := quantity, id := some waste_items.length }],
     Toast.added quantity category)
  else
    (waste_items, Toast.invalidQuantity)

/-- What `ls.getItem(HIST_KEY)` can yield once deserialized: a dict
(well-formed history) or some non-dict value (corrupt data). -/
inductive StoredValue where
  | dict (h : History)
  | nonDict
deriving Repr, DecidableEq

/-- `get_history()` of src/app.py: read the raw stored value (`none`
models a missing value or an exception raised by the read, which the
bare `except` swallows); return it only when it is a dict, else return
the empty dict. -/
def get_history (read : Option StoredValue) : History :=
  match read with
  | some (StoredValue.dict h) => h
  | some StoredValue.nonDict => []
  | none => []

/-! ### Association-list lemmas (Python dict semantics) -/

theorem setAssoc_nil {α : Type} (k : String) (v : α) : setAssoc [] k v = [(k, v)] := rfl

theorem setAssoc_cons {α : Type} (p : String × α) (rest : List (String × α)) (k : String)
    (v : α) :
    setAssoc (p :: rest) k v =
      if p.1 == k then (p.1, v) :: rest else p :: setAssoc rest k v := rfl

theorem lookupA_nil {α : Type} (c : String) : lookupA ([] : List (String × α)) c = none := rfl

theorem lookupA_cons {α : Type} (p : String × α) (rest : List (String × α)) (c : String) :
    lookupA (p :: rest) c = if p.1 == c then some p.2 else lookupA rest c := by
  cases hb : p.1 == c <;> simp [lookupA, List.find?, hb]

theorem lookupA_setAssoc_self {α : Type} (l : List (String × α)) (k : String) (v : α) :
    lookupA (setAssoc l k v) k = some v := by
  induction l with
  | nil => simp [setAssoc_nil, lookupA_cons, lookupA_nil]
  | cons p rest ih =>
    rw [setAssoc_cons]
    by_cases hp : p.1 = k
    · simp [lookupA_cons, hp]
    · simp only [beq_iff_eq, hp, if_false, lookupA_cons, ih]

theorem lookupA_setAssoc_ne {α : Type} (l : List (String × α)) (k c : String) (v : α)
    (h : c ≠ k) : lookupA (setAssoc l k v) c = lookupA l c := by
  induction l with
  | nil => simp [setAssoc_nil, lookupA_cons, lookupA_nil, Ne.symm h]
  | cons p rest ih =>
    rw [setAssoc_cons]
    by_cases hp : p.1 = k
    · have hpc : ¬p.1 = c := by rw [hp]; exact Ne.symm h
      simp [lookupA_cons, hp, hpc, Ne.symm h]
    · simp only [beq_iff_eq, hp, if_false, lookupA_cons, ih]

theorem getDA_eq_lookupA (l : List (String × ℚ)) (k : String) :
    getDA l k = (lookupA l k).getD 0 := rfl

theorem getDA_setAssoc_self (l : List (String × ℚ)) (k : String) (v : ℚ) :
    getDA (setAssoc l k v) k = v := by
  simp [getDA_eq_lookupA, lookupA_setAssoc_self]

theorem getDA_setAssoc_ne (l : List (String × ℚ)) (k c : String) (v : ℚ) (h : c ≠ k) :
    getDA (setAssoc l k v) c = getDA l c := by
  simp [getDA_eq_lookupA, lookupA_setAssoc_ne l k c v h]

theorem sumValues_nil : sumValues [] = 0 := rfl

theorem sumValues_cons (p : String × ℚ) (rest : List (String × ℚ)) :
    sumValues (p :: rest) = p.2 + sumValues rest := by
  simp [sumValues]

theorem getDA_cons (p : String × ℚ) (rest : List (String × ℚ)) (c : String) :
    getDA (p :: rest) c = if p.1 == c then p.2 else getDA rest c := by
  rw [getDA_eq_lookupA, getDA_eq_lookupA, lookupA_cons]
  by_cases h : p.1 == c <;> simp [h]

theorem sumValues_setAssoc (l : List (String × ℚ)) (k : String) (v : ℚ) :
    sumValues (setAssoc l k v) = sumValues l - getDA l k + v := by
  induction l with
  | nil => simp [setAssoc_nil, sumValues_cons, sumValues_nil, getDA_eq_lookupA, lookupA_nil]
  | cons p rest ih =>
    rw [setAssoc_cons, getDA_cons]
    by_cases hp : p.1 = k
    · simp only [beq_iff_eq, hp, if_true, sumValues_cons]
      ring
    · simp only [beq_iff_eq, hp, if_false, sumValues_cons, ih]
      ring

/-! ### The calculator loop invariant -/

theorem calcLoop_spec (items : List WasteItem) :
    ∀ (byCat : List (String × ℚ)) (total : ℚ),
    (∀ i ∈ items, (lookupFactor i.category).isSome) →
    ∃ byCat₂,
      calcLoop items byCat total = some (byCat₂, total + emitSum items) ∧
      (∀ c, getDA byCat₂ c =
        getDA byCat c + emitSum (items.filter (fun i => i.category == c))) ∧
      sumValues byCat₂ = sumValues byCat + emitSum items := by
  induction items with
  | nil => intro byCat total _; exact ⟨byCat, by simp [calcLoop, emitSum]⟩
  | cons item rest ih =>
    intro byCat total hknown
    obtain ⟨f, hf⟩ := Option.isSome_iff_exists.mp (hknown item (by simp))
    have hrest : ∀ i ∈ rest, (lookupFactor i.category).isSome := by
      intro i hi; exact hknown i (by simp [hi])
    obtain ⟨byCat₂, hloop, hget, hsum⟩ :=
      ih (setAssoc byCat item.category (getDA byCat item.category + item.quantity * f))
        (total + item.quantity * f) hrest
    have hemit : emitSum (item :: rest) = item.quantity * f + emitSum rest := by
      simp [emitSum, hf]
    refine ⟨byCat₂, ?_, ?_, ?_⟩
    · simp only [calcLoop, hf]
      rw [hemit, ← add_assoc]
      exact hloop
    · intro c
      rw [hget c]
      by_cases hc : item.category = c
      · subst hc
        rw [getDA_setAssoc_self]
        have hfilter :
            (item :: rest).filter (fun i => i.category == item.category) =
              item :: rest.filter (fun i => i.category == item.category) := by
          simp [List.filter_cons]
        rw [hfilter]
        have hstep : emitSum (item :: rest.filter (fun i => i.category == item.category)) =
            item.quantity * f +
              emitSum (rest.filter (fun i => i.category == item.category)) := by
          simp [emitSum, hf]
        rw [hstep]; ring
      · rw [getDA_setAssoc_ne _ _ _ _ (Ne.symm hc)]
        have hfilter :
            (item :: rest).filter (fun i => i.category == c) =
              rest.filter (fun i => i.category == c) := by
          simp [List.filter_cons, hc]
        rw [hfilter]
    · rw [hsum, sumValues_setAssoc, hemit]; ring

/-- The loop returns `none` as soon as some item's category is missing
from the factor table (Python `KeyError`). -/
theorem calcLoop_unknown_none (items : List WasteItem) :
    ∀ (byCat : List (String × ℚ)) (total : ℚ),
    (∃ i ∈ items, lookupFactor i.category = none) →
    calcLoop items byCat total = none := by
  induction items with
  | nil => intro _ _ h; simp at h
  | cons item rest ih =>
    intro byCat total h
    cases hf : lookupFactor item.category with
    | none => simp [calcLoop, hf]
    | some f =>
      have hrest : ∃ i ∈ rest, lookupFactor i.category = none := by
        rcases h with ⟨i, hi, hnone⟩
        rcases List.mem_cons.mp hi with rfl | hmem
        · rw [hf] at hnone; exact absurd hnone (by simp)
        · exact ⟨i, hmem, hnone⟩
      simp [calcLoop, hf, ih _ _ hrest]

/-! ### The claims -/

/-- C1: for every entry sequence whose categories are all keys of the
emission-factor table, `calculate_emissions` succeeds, its total is
`round(sum(q * factor[c]), 2)`, and each per-category subtotal is the
exact, unrounded sum over the entries of that category (only the grand
total is rounded). -/
theorem C1_total_rounded_subtotals_exact (items : List WasteItem)
    (h : ∀ i ∈ items, (lookupFactor i.category).isSome) :
    ∃ r, calculate_emissions items = some r ∧
      r.total = round2 (emitSum items) ∧
      ∀ c, getDA r.by_category c =
        emitSum (items.filter (fun i => i.category == c)) := by
  obtain ⟨byCat₂, hloop, hget, _⟩ := calcLoop_spec items [] 0 h
  refine ⟨{ total := round2 (0 + emitSum items), by_category := byCat₂, items := items },
    ?_, ?_, ?_⟩
  · rw [calculate_emissions, hloop]; rfl
  · rw [zero_add]
  · intro c
    have hz : getDA [] c = 0 := rfl
    simpa [hz] using hget c

/-- C1 witness: the theorem applied to a concrete two-entry sequence. -/
theorem C1_witness :
    ∃ r, calculate_emissions [⟨"Glass", 3, none⟩, ⟨"Metal", 4, none⟩] = some r ∧
      r.total = round2 (emitSum [⟨"Glass", 3, none⟩, ⟨"Metal", 4, none⟩]) ∧
      ∀ c, getDA r.by_category c =
        emitSum (([⟨"Glass", 3, none⟩, ⟨"Metal", 4, none⟩] : List WasteItem).filter
          (fun i => i.category == c)) :=
  C1_total_rounded_subtotals_exact [⟨"Glass", 3, none⟩, ⟨"Metal", 4, none⟩] (by decide)

/-- C2: on `[("Plastic", 2.0), ("Paper", 5.0)]` the calculator yields the
breakdown `Plastic = 12.0, Paper = 6.0` and total `18.0`, pinning the
hard-coded factors `Plastic = 6.0` and `Paper = 1.2`. -/
theorem C2_concrete_scenario :
    calculate_emissions [⟨"Plastic", 2, none⟩, ⟨"Paper", 5, none⟩] =
      some { total := 18, by_category := [("Plastic", 12), ("Paper", 6)],
             items := [⟨"Plastic", 2, none⟩, ⟨"Paper", 5, none⟩] } ∧
    lookupA EMISSION_FACTORS "Plastic" = some 6 ∧
    lookupA EMISSION_FACTORS "Paper" = some (12/10) := by
  refine ⟨?_, ?_, ?_⟩
  · simp only [calculate_emissions, calcLoop, lookupFactor, EMISSION_FACTORS, setAssoc, getDA,
      List.find?, String.reduceBEq, String.reduceEq, Option.map, Option.getD]
    norm_num [round2, roundHalfEven]
  · simp only [lookupA, EMISSION_FACTORS, List.find?, String.reduceBEq, Option.map]
  · simp only [lookupA, EMISSION_FACTORS, List.find?, String.reduceBEq, Option.map]

/-- C3: the empty entry sequence yields total 0, an empty breakdown and an
empty item list. -/
theorem C3_empty_input :
    calculate_emissions [] = some { total := 0, by_category := [], items := [] } := by
  simp only [calculate_emissions, calcLoop, Option.map]
  norm_num [round2, roundHalfEven]

/-- C4: for every entry sequence with all categories known, the sum of the
per-category subtotals equals the exact unrounded grand total, and the
reported total is that sum rounded to 2 decimal places. -/
theorem C4_breakdown_sums_to_total (items : List WasteItem)
    (h : ∀ i ∈ items, (lookupFactor i.category).isSome) :
    ∃ r, calculate_emissions items = some r ∧
      sumValues r.by_category = emitSum items ∧
      r.total = round2 (sumValues r.by_category) := by
  obtain ⟨byCat₂, hloop, _, hsum⟩ := calcLoop_spec items [] 0 h
  have hsum0 : sumValues byCat₂ = emitSum items := by
    simpa [sumValues_nil] using hsum
  refine ⟨{ total := round2 (0 + emitSum items), by_category := byCat₂, items := items },
    ?_, ?_, ?_⟩
  · rw [calculate_emissions, hloop]; rfl
  · exact hsum0
  · show round2 (0 + emitSum items) = round2 (sumValues byCat₂)
    rw [zero_add, hsum0]

/-- C4 witness: the theorem applied to a concrete sequence with a repeated
category. -/
theorem C4_witness :
    ∃ r, calculate_emissions
        [⟨"Textiles", 1, none⟩, ⟨"Paper", 2, none⟩, ⟨"Textiles", 3, none⟩] = some r ∧
      sumValues r.by_category =
        emitSum [⟨"Textiles", 1, none⟩, ⟨"Paper", 2, none⟩, ⟨"Textiles", 3, none⟩] ∧
      r.total = round2 (sumValues r.by_category) :=
  C4_breakdown_sums_to_total
    [⟨"Textiles", 1, none⟩, ⟨"Paper", 2, none⟩, ⟨"Textiles", 3, none⟩] (by decide)

/-- C5: any entry sequence containing a category absent from the factor
table makes `calculate_emissions` abort with a fatal lookup failure
(Python `KeyError`, modelled as `none`): no result is produced. -/
theorem C5_unknown_category_fatal (items : List WasteItem)
    (h : ∃ i ∈ items, lookupFactor i.category = none) :
    calculate_emissions items = none := by
  rw [calculate_emissions, calcLoop_unknown_none items [] 0 h]
  rfl

/-- C5 witness: a concrete sequence with an unknown category. -/
theorem C5_witness :
    calculate_emissions [⟨"Plastic", 1, none⟩, ⟨"Uranium", 1, none⟩] = none :=
  C5_unknown_category_fatal [⟨"Plastic", 1, none⟩, ⟨"Uranium", 1, none⟩] (by decide)

/-- C6: storing a result under an already-used month label fully
overwrites the previous entry (no merge), and every other month label is
unchanged. -/
theorem C6_put_overwrites (h : History) (m : String) (A B : Record) :
    lookupA (put_history (put_history h m A) m B) m = some B ∧
    ∀ m2, m2 ≠ m → lookupA (put_history (put_history h m A) m B) m2 = lookupA h m2 := by
  constructor
  · exact lookupA_setAssoc_self _ _ _
  · intro m2 hne
    rw [put_history, put_history, lookupA_setAssoc_ne _ _ _ _ hne,
      lookupA_setAssoc_ne _ _ _ _ hne]

/-- C6 witness: two writes to "March 2025" over a store holding
"January 2025"; the March slot holds the second value and the January
slot is untouched. -/
theorem C6_witness :
    lookupA (put_history (put_history [("January 2025", { total := some 5 })] "March 2025"
        { total := some 1 }) "March 2025" { total := some 2 }) "March 2025" =
      some { total := some 2 } ∧
    lookupA (put_history (put_history [("January 2025", { total := some 5 })] "March 2025"
        { total := some 1 }) "March 2025" { total := some 2 }) "January 2025" =
      lookupA [("January 2025", { total := some 5 })] "January 2025" :=
  ⟨(C6_put_overwrites [("January 2025", { total := some 5 })] "March 2025"
      { total := some 1 } { total := some 2 }).1,
   (C6_put_overwrites [("January 2025", { total := some 5 })] "March 2025"
      { total := some 1 } { total := some 2 }).2 "January 2025" (by decide)⟩

/-- C7: reading a stored record that lacks the `by_category` breakdown but
has items recomputes the whole record via the calculator and writes the
upgraded record back into the store; the record seen by the caller carries
the recomputed breakdown. -/
theorem C7_migration_on_read (h : History) (m : String) (data : Record)
    (r : CalculationResult)
    (hm : lookupA h m = some data)
    (hbc : truthyOptList data.by_category = false)
    (hit : truthyOptList data.items = true)
    (hcalc : calculate_emissions (data.items.getD []) = some r) :
    read_record h m = some (resultToRecord r, setAssoc h m (resultToRecord r)) ∧
    (resultToRecord r).by_category = some r.by_category := by
  constructor
  · simp only [read_record, hm, hbc, hit, Bool.not_false, Bool.and_self, if_true, hcalc]
  · rfl

/-- C7 witness: the legacy record `{items: [{Plastic, 2}], total: 12.0}`
without `by_category`, read under "March 2025", yields the recomputed
breakdown `{Plastic: 12.0}` and the store is updated in place. -/
theorem C7_witness :
    read_record [("March 2025",
        { total := some 12, by_category := none,
          items := some [⟨"Plastic", 2, none⟩] })] "March 2025" =
      some ({ total := some 12, by_category := some [("Plastic", 12)],
              items := some [⟨"Plastic", 2, none⟩] },
            [("March 2025",
              { total := some 12, by_category := some [("Plastic", 12)],
                items := some [⟨"Plastic", 2, none⟩] })]) ∧
    ({ total := some 12, by_category := some [("Plastic", 12)],
       items := some [⟨"Plastic", 2, none⟩] } : Record).by_category =
      some [("Plastic", 12)] :=
  C7_migration_on_read
    [("March 2025",
      { total := some 12, by_category := none, items := some [⟨"Plastic", 2, none⟩] })]
    "March 2025"
    { total := some 12, by_category := none, items := some [⟨"Plastic", 2, none⟩] }
    { total := 12, by_category := [("Plastic", 12)], items := [⟨"Plastic", 2, none⟩] }
    rfl rfl rfl
    (by simp only [calculate_emissions, calcLoop, lookupFactor, EMISSION_FACTORS, setAssoc,
          getDA, List.find?, String.reduceBEq, String.reduceEq, Option.map, Option.getD]
        norm_num [round2, roundHalfEven])

/-- C8: submitting the add-item form with a non-positive quantity leaves
the item list unchanged and emits the warning toast; the handler is a
total function, so no exception is raised. -/
theorem C8_nonpositive_quantity_rejected (waste_items : List WasteItem) (category : String)
    (quantity : ℚ) (h : quantity ≤ 0) :
    submit_add_item waste_items category quantity = (waste_items, Toast.invalidQuantity) := by
  rw [submit_add_item, if_neg (not_lt.mpr h)]

/-- C8 witness: quantity 0 over a one-item list is rejected and the list
is unchanged. -/
theorem C8_witness :
    submit_add_item [⟨"Paper", 1, some 0⟩] "Plastic" 0 =
      ([⟨"Paper", 1, some 0⟩], Toast.invalidQuantity) :=
  C8_nonpositive_quantity_rejected [⟨"Paper", 1, some 0⟩] "Plastic" 0 (le_refl 0)

/-- C9: whenever the raw persisted value is missing, raises on read, or is
not a dict, `get_history` returns the empty mapping instead of surfacing
an error. -/
theorem C9_corrupt_history_empty (read : Option StoredValue)
    (h : ∀ d, read ≠ some (StoredValue.dict d)) :
    get_history read = [] := by
  cases read with
  | none => rfl
  | some v =>
    cases v with
    | dict d => exact absurd rfl (h d)
    | nonDict => rfl

/-- C9 witness: both failure shapes — missing/raising read and a non-dict
value — yield the empty history. -/
theorem C9_witness :
    get_history none = [] ∧ get_history (some StoredValue.nonDict) = [] :=
  ⟨C9_corrupt_history_empty none (fun _ hd => Option.noConfusion hd),
   C9_corrupt_history_empty (some StoredValue.nonDict) (by simp)⟩

/-- C10: migration-on-read replaces the legacy record wholesale with
`calculate_emissions(items)`: the migrated record's total is the
recomputed (2-decimal-rounded) total of the calculator, and the legacy
total `t` — whatever it was — is discarded. -/
theorem C10_migration_discards_total (t : Option ℚ) (items : List WasteItem)
    (r : CalculationResult) (hne : items ≠ [])
    (hcalc : calculate_emissions items = some r) :
    migrate_record { total := t, by_category := none, items := some items } =
      some (resultToRecord r) ∧
    (resultToRecord r).total = some r.total := by
  constructor
  · have hemp : items.isEmpty = false := by
      simpa using hne
    simp only [migrate_record, truthyOptList, hemp, Bool.not_false, Bool.and_self,
      Bool.not_true, if_true, Option.getD, hcalc, Option.map]
  · rfl

/-- C10 witness: a legacy record whose stored total 9999 disagrees with
its items is migrated to the recomputed total 12; the 9999 is discarded. -/
theorem C10_witness :
    migrate_record
      { total := some 9999, by_category := none, items := some [⟨"Plastic", 2, none⟩] } =
      some { total := some 12, by_category := some [("Plastic", 12)],
             items := some [⟨"Plastic", 2, none⟩] } ∧
    ({ total := some 12, by_category := some [("Plastic", 12)],
       items := some [⟨"Plastic", 2, none⟩] } : Record).total = some 12 :=
  C10_migration_discards_total (some 9999) [⟨"Plastic", 2, none⟩]
    { total := 12, by_category := [("Plastic", 12)], items := [⟨"Plastic", 2, none⟩] }
    (by simp)
    (by simp only [calculate_emissions, calcLoop, lookupFactor, EMISSION_FACTORS, setAssoc,
          getDA, List.find?, String.reduceBEq, String.reduceEq, Option.map, Option.getD]
        norm_num [round2, roundHalfEven])

end CarbonWise
